import Mathlib

/-!
Verification of the broadcast fan-out routine of the Pop backend
(`src/main.py`, route `/api/send-notification`).

The stateful Flask handler is shallowly embedded as a pure function
`Pop.send_notification` from an environment (database connectivity, the
token collection's contents, the push gateway's per-batch behaviour, and
the success or failure of the two best-effort storage writes) and a parsed
request body to the HTTP-visible result together with the externally
observable effects (gateway calls issued, deletion request, history record
written, resulting token store).
-/

namespace Pop

/-- A parsed JSON body for `POST /api/send-notification`: `data.get("title")`,
`data.get("body")`, `data.get("image")` each yield `None` or a string. -/
structure Request where
  title : Option String
  body : Option String
  image : Option String
deriving DecidableEq, Repr

/-- Python truthiness test `not x` for a value that is `None` or a string:
true exactly when the value is absent or the empty string. -/
def isFalsy (o : Option String) : Bool :=
  match o with
  | none => true
  | some s => s.isEmpty

/-- One per-message `SendResponse` of the firebase batch response:
`response.success` and, when a failure carries an exception, the
machine-readable code `response.exception.code` (absent exception is
modelled as `none`). -/
structure Outcome where
  success : Bool
  errorCode : Option String
deriving DecidableEq, Repr

/-- Result of one `messaging.send_all(messages)` call: either a batch
response holding one entry per message in order (`ok`), or an exception
raised by the transport (`transportError`). -/
inductive BatchResult where
  | ok (responses : List Outcome)
  | transportError
deriving DecidableEq, Repr

/-- The failure codes the handler treats as permanently invalid tokens
(`src/main.py` lines 138-142). -/
def invalidCodes : List String :=
  ["UNREGISTERED", "INVALID_ARGUMENT", "registration-token-not-registered"]

/-- `response.exception.code in [...]` membership test. -/
def isInvalidCode (c : String) : Bool :=
  invalidCodes.contains c

/-- An outcome that causes its token to be appended to `invalid_tokens`:
a failed response whose exception is present and carries a recognized code. -/
def isInvalidOutcome (o : Outcome) : Bool :=
  !o.success &&
    (match o.errorCode with
     | some c => isInvalidCode c
     | none => false)

/-- The environment a single `/api/send-notification` invocation runs in:
the Mongo client's availability, the current contents of `tokens_collection`
(one token string per document), whether listing tokens succeeds, the push
gateway's response to the n-th batch call, and whether the two best-effort
writes (`delete_many`, `insert_one`) succeed. -/
structure Env where
  dbConnected : Bool
  store : List String
  listOk : Bool
  gateway : Nat → BatchResult
  deleteOk : Bool
  historyOk : Bool

/-- The three mutable aggregates of the send loop: `success_count`,
`failure_count` and the `invalid_tokens` list. -/
structure Counts where
  success : Nat
  failure : Nat
  invalid : List String
deriving DecidableEq, Repr

/-- Initial aggregates: both counters zero, no invalid tokens. -/
def Counts.zero : Counts := ⟨0, 0, []⟩

/-- Pointwise combination of aggregates (counters add, invalid lists
concatenate in order). -/
def accAdd (a b : Counts) : Counts :=
  ⟨a.success + b.success, a.failure + b.failure, a.invalid ++ b.invalid⟩

/-- The loop `for idx, response in enumerate(batch_response.responses)`
(`src/main.py` lines 133-143), including Python's exception semantics: an
out-of-range `batch_tokens[idx]` raises `IndexError`, which escapes to the
surrounding `except` — the Boolean result records whether that happened,
and the aggregates mutated so far are kept. -/
def procResponses (bt : List String) : List Outcome → Nat → Counts → Counts × Bool
  | [], _, acc => (acc, false)
  | o :: rest, idx, acc =>
    if o.success then
      procResponses bt rest (idx + 1) { acc with success := acc.success + 1 }
    else
      match o.errorCode with
      | some c =>
        if isInvalidCode c then
          match bt.get? idx with
          | some tok =>
            procResponses bt rest (idx + 1)
              { acc with failure := acc.failure + 1, invalid := acc.invalid ++ [tok] }
          | none => ({ acc with failure := acc.failure + 1 }, true)
        else
          procResponses bt rest (idx + 1) { acc with failure := acc.failure + 1 }
      | none =>
        procResponses bt rest (idx + 1) { acc with failure := acc.failure + 1 }

/-- The body of one iteration of the batch loop (`src/main.py` lines
131-146): on a transport exception — or an `IndexError` escaping the
response walk — every token of the batch is added to the failure count
(`failure_count += len(batch_tokens)`). -/
def procBatch (r : BatchResult) (bt : List String) (acc : Counts) : Counts :=
  match r with
  | .transportError => { acc with failure := acc.failure + bt.length }
  | .ok rs =>
    let res := procResponses bt rs 0 acc
    if res.2 then { res.1 with failure := res.1.failure + bt.length } else res.1

/-- The batch loop `for i in range(0, len(all_tokens), 500)` over the slices
already taken: processes each batch in order, feeding the gateway the batch
ordinal. -/
def runBatches (gw : Nat → BatchResult) : Nat → List (List String) → Counts → Counts
  | _, [], acc => acc
  | i, bt :: rest, acc => runBatches gw (i + 1) rest (procBatch (gw i) bt acc)

/-- Slicing `all_tokens[i:i+500]` for `i in range(0, len(all_tokens), 500)`:
structural recursion on a fuel that the list length always suffices for. -/
def chunksGo : Nat → List String → List (List String)
  | _, [] => []
  | 0, _ :: _ => []
  | fuel + 1, t :: rest => ((t :: rest).take 500) :: chunksGo fuel ((t :: rest).drop 500)

/-- The batches of 500 the handler sends, in order. -/
def chunk500 (l : List String) : List (List String) :=
  chunksGo l.length l

/-- The persisted history document (`src/main.py` lines 157-166); the
timestamp is not modelled. -/
structure BroadcastRecord where
  title : String
  body : String
  image : Option String
  total_tokens : Nat
  success_count : Nat
  failure_count : Nat
  invalid_tokens_removed : Nat
deriving DecidableEq, Repr

/-- The JSON summary of the 200 response (`src/main.py` lines 171-177). -/
structure Summary where
  total_tokens_processed : Nat
  success_count : Nat
  failure_count : Nat
  invalid_tokens_removed : Nat
deriving DecidableEq, Repr

/-- The HTTP-visible result of the handler. -/
inductive HttpResult where
  | dbNotConnected
  | invalidRequest
  | storeReadError
  | noRecipients
  | ok (s : Summary)
deriving DecidableEq, Repr

/-- The HTTP status code attached to each result in `src/main.py`. -/
def statusCode : HttpResult → Nat
  | .dbNotConnected => 500
  | .invalidRequest => 400
  | .storeReadError => 500
  | .noRecipients => 404
  | .ok _ => 200

/-- Externally observable side effects of one invocation: whether the token
collection was read, the token batches handed to `messaging.send_all` (one
message per token), the token set passed to `delete_many` (if any), the
history document written (if the insert succeeded), and the token
collection's contents afterwards. -/
structure Effects where
  storeRead : Bool
  gatewayBatches : List (List String)
  deleteRequested : Option (List String)
  historyWrite : Option BroadcastRecord
  finalStore : List String
deriving DecidableEq, Repr

/-- Effects of an invocation that touches nothing: no read, no gateway
call, no delete, no history write, store unchanged. -/
def Effects.idle (env : Env) : Effects :=
  { storeRead := false
    gatewayBatches := []
    deleteRequested := none
    historyWrite := none
    finalStore := env.store }

/-- Extract a required string out of the already-validated optional field. -/
def orEmpty (o : Option String) : String :=
  match o with
  | some s => s
  | none => ""

/-- Shallow embedding of the handler `send_notification` (`src/main.py`
lines 92-177): connectivity check, title/body validation, token listing,
empty-store short-circuit, batched send with outcome classification,
best-effort `delete_many` of invalid tokens, best-effort history insert,
and the 200 summary. -/
def send_notification (env : Env) (req : Request) : HttpResult × Effects :=
  if !env.dbConnected then
    (.dbNotConnected, Effects.idle env)
  else if isFalsy req.title || isFalsy req.body then
    (.invalidRequest, Effects.idle env)
  else if !env.listOk then
    (.storeReadError, { Effects.idle env with storeRead := true })
  else if env.store.isEmpty then
    (.noRecipients, { Effects.idle env with storeRead := true })
  else
    let all_tokens := env.store
    let batches := chunk500 all_tokens
    let acc := runBatches env.gateway 0 batches Counts.zero
    let finalStore :=
      if !acc.invalid.isEmpty && env.deleteOk then
        all_tokens.filter (fun t => !acc.invalid.contains t)
      else all_tokens
    let record : BroadcastRecord :=
      { title := orEmpty req.title
        body := orEmpty req.body
        image := req.image
        total_tokens := all_tokens.length
        success_count := acc.success
        failure_count := acc.failure
        invalid_tokens_removed := acc.invalid.length }
    (.ok { total_tokens_processed := all_tokens.length
           success_count := acc.success
           failure_count := acc.failure
           invalid_tokens_removed := acc.invalid.length },
     { storeRead := true
       gatewayBatches := batches
       deleteRequested := if acc.invalid.isEmpty then none else some acc.invalid
       historyWrite := if env.historyOk then some record else none
       finalStore := finalStore })

/-! ### Accumulator algebra -/

lemma accAdd_zero (a : Counts) : accAdd a Counts.zero = a := by
  cases a; simp [accAdd, Counts.zero]

lemma zero_accAdd (a : Counts) : accAdd Counts.zero a = a := by
  cases a; simp [accAdd, Counts.zero]

lemma accAdd_assoc (a b c : Counts) :
    accAdd (accAdd a b) c = accAdd a (accAdd b c) := by
  cases a; cases b; cases c
  simp [accAdd, Nat.add_assoc]

/-- The aggregates and crash flag the response walk produces when started
from the empty accumulator. -/
def respDelta (bt : List String) (rs : List Outcome) (idx : Nat) : Counts × Bool :=
  procResponses bt rs idx Counts.zero

/-- Walking the responses from accumulator `a` is walking them from the
empty accumulator and adding `a` in front; the crash flag is independent
of the accumulator. -/
lemma procResponses_shift (bt : List String) (rs : List Outcome) :
    ∀ (idx : Nat) (a : Counts),
      procResponses bt rs idx a =
        (accAdd a (respDelta bt rs idx).1, (respDelta bt rs idx).2) := by
  induction rs with
  | nil =>
    intro idx a
    simp [procResponses, respDelta, accAdd_zero]
  | cons o rest IH =>
    intro idx a
    cases hs : o.success with
    | true =>
      simp only [respDelta, procResponses, hs, if_true]
      rw [IH (idx + 1), IH (idx + 1)]
      cases a
      simp [accAdd, Counts.zero, Prod.ext_iff, Counts.mk.injEq] <;> omega
    | false =>
      cases he : o.errorCode with
      | none =>
        simp only [respDelta, procResponses, hs, he, Bool.false_eq_true, if_false]
        rw [IH (idx + 1), IH (idx + 1)]
        cases a
        simp [accAdd, Counts.zero, Prod.ext_iff, Counts.mk.injEq] <;> omega
      | some c =>
        cases hc : isInvalidCode c with
        | false =>
          simp only [respDelta, procResponses, hs, he, hc, Bool.false_eq_true, if_false]
          rw [IH (idx + 1), IH (idx + 1)]
          cases a
          simp [accAdd, Counts.zero, Prod.ext_iff, Counts.mk.injEq] <;> omega
        | true =>
          cases hg : bt.get? idx with
          | none =>
            cases a
            simp only [respDelta, procResponses, hs, he, hc, hg, Bool.false_eq_true, if_false, if_true]
            simp [accAdd, Counts.zero, Prod.ext_iff, Counts.mk.injEq] <;> omega
          | some tok =>
            simp only [respDelta, procResponses, hs, he, hc, hg, Bool.false_eq_true, if_false, if_true]
            rw [IH (idx + 1), IH (idx + 1)]
            cases a
            simp [accAdd, Counts.zero, Prod.ext_iff, Counts.mk.injEq] <;> omega

/-- Aggregates contributed by a single batch, starting from nothing. -/
def batchDelta (r : BatchResult) (bt : List String) : Counts :=
  procBatch r bt Counts.zero

lemma procBatch_shift (r : BatchResult) (bt : List String) (a : Counts) :
    procBatch r bt a = accAdd a (batchDelta r bt) := by
  cases r with
  | transportError =>
    cases a
    simp [procBatch, batchDelta, accAdd, Counts.zero, Nat.add_comm]
  | ok rs =>
    simp only [procBatch, batchDelta]
    rw [procResponses_shift bt rs 0 a, procResponses_shift bt rs 0 Counts.zero]
    rw [zero_accAdd]
    cases hcr : (respDelta bt rs 0).2 with
    | false => simp
    | true =>
      cases hres : (respDelta bt rs 0).1
      cases a
      simp [accAdd, Nat.add_assoc]

/-- Aggregates contributed by the batches `bs`, the first carrying gateway
ordinal `i`. -/
def sumFrom (gw : Nat → BatchResult) (i : Nat) (bs : List (List String)) : Counts :=
  runBatches gw i bs Counts.zero

lemma runBatches_shift (gw : Nat → BatchResult) :
    ∀ (bs : List (List String)) (i : Nat) (a : Counts),
      runBatches gw i bs a = accAdd a (sumFrom gw i bs) := by
  intro bs
  induction bs with
  | nil =>
    intro i a
    simp [runBatches, sumFrom, accAdd_zero]
  | cons bt rest IH =>
    intro i a
    simp only [runBatches, sumFrom]
    rw [procBatch_shift (gw i) bt a, IH (i + 1) (accAdd a (batchDelta (gw i) bt)),
      IH (i + 1) (procBatch (gw i) bt Counts.zero)]
    rw [procBatch_shift (gw i) bt Counts.zero, zero_accAdd, accAdd_assoc]

lemma sumFrom_cons (gw : Nat → BatchResult) (i : Nat) (bt : List String)
    (rest : List (List String)) :
    sumFrom gw i (bt :: rest) = accAdd (batchDelta (gw i) bt) (sumFrom gw (i + 1) rest) := by
  simp only [sumFrom, runBatches]
  rw [runBatches_shift gw rest (i + 1) (procBatch (gw i) bt Counts.zero),
    procBatch_shift (gw i) bt Counts.zero, zero_accAdd]
  rfl

lemma sumFrom_append (gw : Nat → BatchResult) :
    ∀ (xs ys : List (List String)) (i : Nat),
      sumFrom gw i (xs ++ ys) = accAdd (sumFrom gw i xs) (sumFrom gw (i + xs.length) ys) := by
  intro xs
  induction xs with
  | nil =>
    intro ys i
    simp [sumFrom, runBatches, zero_accAdd]
  | cons bt rest IH =>
    intro ys i
    rw [List.cons_append, sumFrom_cons, sumFrom_cons, IH ys (i + 1), accAdd_assoc]
    have : i + 1 + rest.length = i + (bt :: rest).length := by
      simp [List.length_cons]; omega
    rw [this]

/-! ### Characterizing the response walk -/

/-- Number of successful outcomes in a response list. -/
def countT (rs : List Outcome) : Nat :=
  (rs.filter (fun o => o.success)).length

/-- Number of failed outcomes in a response list. -/
def countF (rs : List Outcome) : Nat :=
  (rs.filter (fun o => !o.success)).length

/-- The tokens appended to `invalid_tokens` by walking `rs` against batch
`bt` starting at position `idx`: the batch token at each position whose
outcome is a recognized permanent failure. -/
def invFrom (bt : List String) : Nat → List Outcome → List String
  | _, [] => []
  | idx, o :: rest =>
    (if isInvalidOutcome o then (bt.get? idx).toList else []) ++ invFrom bt (idx + 1) rest

lemma countT_add_countF (rs : List Outcome) : countT rs + countF rs = rs.length := by
  induction rs with
  | nil => simp [countT, countF]
  | cons o rest IH =>
    cases hs : o.success <;>
      simp [countT, countF, List.filter_cons, hs] at IH ⊢ <;> omega

/-- When there are at least as many batch tokens as responses, the walk
never crashes and produces exactly the success/failure tallies and the
recognized-invalid tokens of the response list. -/
lemma respDelta_of_le (bt : List String) :
    ∀ (rs : List Outcome) (idx : Nat), idx + rs.length ≤ bt.length →
      respDelta bt rs idx = (⟨countT rs, countF rs, invFrom bt idx rs⟩, false) := by
  intro rs
  induction rs with
  | nil =>
    intro idx h
    simp [respDelta, procResponses, countT, countF, invFrom, Counts.zero]
  | cons o rest IH =>
    intro idx h
    have hlen : idx + 1 + rest.length ≤ bt.length := by
      simp only [List.length_cons] at h; omega
    cases hs : o.success with
    | true =>
      simp only [respDelta, procResponses, hs, if_true]
      rw [procResponses_shift, IH (idx + 1) hlen]
      simp [countT, countF, invFrom, isInvalidOutcome, hs, accAdd, Counts.zero, List.filter_cons, Prod.ext_iff, Counts.mk.injEq] <;> omega
    | false =>
      cases he : o.errorCode with
      | none =>
        simp only [respDelta, procResponses, hs, he, Bool.false_eq_true, if_false]
        rw [procResponses_shift, IH (idx + 1) hlen]
        simp [countT, countF, invFrom, isInvalidOutcome, hs, he, accAdd, Counts.zero, List.filter_cons, Prod.ext_iff, Counts.mk.injEq] <;> omega
      | some c =>
        cases hc : isInvalidCode c with
        | false =>
          simp only [respDelta, procResponses, hs, he, hc, Bool.false_eq_true, if_false]
          rw [procResponses_shift, IH (idx + 1) hlen]
          simp [countT, countF, invFrom, isInvalidOutcome, hs, he, hc, accAdd, Counts.zero, List.filter_cons, Prod.ext_iff, Counts.mk.injEq] <;> omega
        | true =>
          cases hg : bt.get? idx with
          | none =>
            exfalso
            have := List.get?_eq_none.mp hg
            simp only [List.length_cons] at h
            omega
          | some tok =>
            have hg2 : bt[idx]? = some tok := by simpa using hg
            simp only [respDelta, procResponses, hs, he, hc, hg, Bool.false_eq_true, if_false, if_true]
            rw [procResponses_shift, IH (idx + 1) hlen]
            simp [countT, countF, invFrom, isInvalidOutcome, hs, he, hc, hg2, accAdd, Counts.zero, List.filter_cons, Prod.ext_iff, Counts.mk.injEq] <;> omega

lemma batchDelta_transport (bt : List String) :
    batchDelta .transportError bt = ⟨0, bt.length, []⟩ := by
  simp [batchDelta, procBatch, Counts.zero]

lemma batchDelta_ok_of_le (rs : List Outcome) (bt : List String)
    (h : rs.length ≤ bt.length) :
    batchDelta (.ok rs) bt = ⟨countT rs, countF rs, invFrom bt 0 rs⟩ := by
  have h0 : 0 + rs.length ≤ bt.length := by omega
  have hch := respDelta_of_le bt rs 0 h0
  simp only [batchDelta, procBatch]
  rw [show procResponses bt rs 0 Counts.zero = respDelta bt rs 0 from rfl, hch]
  simp

/-- The invalid-token list a batch contributes is unchanged by the crash
bookkeeping (a crash only adds to the failure counter). -/
lemma batchDelta_ok_invalid (rs : List Outcome) (bt : List String) :
    (batchDelta (.ok rs) bt).invalid = (respDelta bt rs 0).1.invalid := by
  simp only [batchDelta, procBatch]
  rw [show procResponses bt rs 0 Counts.zero = respDelta bt rs 0 from rfl]
  cases h2 : (respDelta bt rs 0).2 <;> simp [h2]

/-- Every token ever appended to `invalid_tokens` sits at a position of the
batch whose recorded outcome is a recognized permanent failure. -/
lemma mem_respDelta_invalid (bt : List String) :
    ∀ (rs : List Outcome) (idx : Nat) (t : String),
      t ∈ (respDelta bt rs idx).1.invalid →
      ∃ k o, rs.get? k = some o ∧ isInvalidOutcome o = true ∧ bt.get? (idx + k) = some t := by
  intro rs
  induction rs with
  | nil =>
    intro idx t h
    simp [respDelta, procResponses, Counts.zero] at h
  | cons o rest IH =>
    intro idx t h
    cases hs : o.success with
    | true =>
      simp only [respDelta, procResponses, hs, if_true] at h
      rw [procResponses_shift] at h
      simp only [accAdd, Counts.zero, List.nil_append] at h
      obtain ⟨k, o2, hk, hio, hbt⟩ := IH (idx + 1) t h
      refine ⟨k + 1, o2, by simpa using hk, hio, ?_⟩
      have : idx + (k + 1) = idx + 1 + k := by omega
      rw [this]; exact hbt
    | false =>
      cases he : o.errorCode with
      | none =>
        simp only [respDelta, procResponses, hs, he, Bool.false_eq_true, if_false] at h
        rw [procResponses_shift] at h
        simp only [accAdd, Counts.zero, List.nil_append] at h
        obtain ⟨k, o2, hk, hio, hbt⟩ := IH (idx + 1) t h
        refine ⟨k + 1, o2, by simpa using hk, hio, ?_⟩
        have : idx + (k + 1) = idx + 1 + k := by omega
        rw [this]; exact hbt
      | some c =>
        cases hc : isInvalidCode c with
        | false =>
          simp only [respDelta, procResponses, hs, he, hc, Bool.false_eq_true, if_false] at h
          rw [procResponses_shift] at h
          simp only [accAdd, Counts.zero, List.nil_append] at h
          obtain ⟨k, o2, hk, hio, hbt⟩ := IH (idx + 1) t h
          refine ⟨k + 1, o2, by simpa using hk, hio, ?_⟩
          have : idx + (k + 1) = idx + 1 + k := by omega
          rw [this]; exact hbt
        | true =>
          cases hg : bt.get? idx with
          | none =>
            simp only [respDelta, procResponses, hs, he, hc, hg, Bool.false_eq_true, if_false, if_true] at h
            simp [Counts.zero] at h
          | some tok =>
            simp only [respDelta, procResponses, hs, he, hc, hg, Bool.false_eq_true, if_false, if_true] at h
            rw [procResponses_shift] at h
            simp only [accAdd, Counts.zero, List.nil_append, List.cons_append, List.mem_cons] at h
            rcases h with h | h
            · refine ⟨0, o, rfl, ?_, ?_⟩
              · simp [isInvalidOutcome, hs, he, hc]
              · rw [Nat.add_zero, hg, h]
            · obtain ⟨k, o2, hk, hio, hbt⟩ := IH (idx + 1) t h
              refine ⟨k + 1, o2, by simpa using hk, hio, ?_⟩
              have : idx + (k + 1) = idx + 1 + k := by omega
              rw [this]; exact hbt

lemma mem_batchDelta_invalid_subset (r : BatchResult) (bt : List String)
    (t : String) (h : t ∈ (batchDelta r bt).invalid) : t ∈ bt := by
  cases r with
  | transportError => rw [batchDelta_transport] at h; simp at h
  | ok rs =>
    rw [batchDelta_ok_invalid] at h
    obtain ⟨k, o, _, _, hbt⟩ := mem_respDelta_invalid bt rs 0 t h
    exact List.get?_mem hbt

/-- A recognized permanent failure at an in-range position contributes its
token to the walk's invalid list. -/
lemma invFrom_mem (bt : List String) :
    ∀ (rs : List Outcome) (idx j : Nat) (o : Outcome) (t : String),
      rs.get? j = some o → isInvalidOutcome o = true →
      bt.get? (idx + j) = some t →
      t ∈ invFrom bt idx rs := by
  intro rs
  induction rs with
  | nil => intro idx j o t hj; simp at hj
  | cons o0 rest IH =>
    intro idx j o t hj hio hbt
    cases j with
    | zero =>
      have ho : o0 = o := by simpa using hj
      subst ho
      simp only [invFrom, hio, if_true, List.mem_append]
      left
      rw [Nat.add_zero] at hbt
      simpa using hbt
    | succ m =>
      have hj2 : rest.get? m = some o := by simpa using hj
      have hbt2 : bt.get? (idx + 1 + m) = some t := by
        have : idx + 1 + m = idx + (m + 1) := by omega
        rw [this]; exact hbt
      simp only [invFrom, List.mem_append]
      right
      exact IH (idx + 1) m o t hj2 hio hbt2

/-! ### Invariants of the aggregates -/

lemma respDelta_inv_le (bt : List String) :
    ∀ (rs : List Outcome) (idx : Nat),
      (respDelta bt rs idx).1.invalid.length ≤ (respDelta bt rs idx).1.failure := by
  intro rs
  induction rs with
  | nil => intro idx; simp [respDelta, procResponses, Counts.zero]
  | cons o rest IH =>
    intro idx
    cases hs : o.success with
    | true =>
      simp only [respDelta, procResponses, hs, if_true]
      rw [procResponses_shift]
      have := IH (idx + 1)
      simp only [accAdd, Counts.zero, List.nil_append] at *
      omega
    | false =>
      cases he : o.errorCode with
      | none =>
        simp only [respDelta, procResponses, hs, he, Bool.false_eq_true, if_false]
        rw [procResponses_shift]
        have := IH (idx + 1)
        simp only [accAdd, Counts.zero, List.nil_append] at *
        omega
      | some c =>
        cases hc : isInvalidCode c with
        | false =>
          simp only [respDelta, procResponses, hs, he, hc, Bool.false_eq_true, if_false]
          rw [procResponses_shift]
          have := IH (idx + 1)
          simp only [accAdd, Counts.zero, List.nil_append] at *
          omega
        | true =>
          cases hg : bt.get? idx with
          | none =>
            simp only [respDelta, procResponses, hs, he, hc, hg, Bool.false_eq_true, if_false, if_true]
            simp [Counts.zero]
          | some tok =>
            simp only [respDelta, procResponses, hs, he, hc, hg, Bool.false_eq_true, if_false, if_true]
            rw [procResponses_shift]
            have := IH (idx + 1)
            simp only [accAdd, Counts.zero, List.nil_append, List.cons_append, List.length_cons, List.length_append] at *
            omega

lemma batchDelta_inv_le (r : BatchResult) (bt : List String) :
    (batchDelta r bt).invalid.length ≤ (batchDelta r bt).failure := by
  cases r with
  | transportError => rw [batchDelta_transport]; simp
  | ok rs =>
    have := respDelta_inv_le bt rs 0
    simp only [batchDelta, procBatch]
    rw [show procResponses bt rs 0 Counts.zero = respDelta bt rs 0 from rfl]
    cases h2 : (respDelta bt rs 0).2 <;> simp [h2] <;> omega

lemma sumFrom_inv_le (gw : Nat → BatchResult) :
    ∀ (bs : List (List String)) (i : Nat),
      (sumFrom gw i bs).invalid.length ≤ (sumFrom gw i bs).failure := by
  intro bs
  induction bs with
  | nil => intro i; simp [sumFrom, runBatches, Counts.zero]
  | cons bt rest IH =>
    intro i
    rw [sumFrom_cons]
    have h1 := batchDelta_inv_le (gw i) bt
    have h2 := IH (i + 1)
    simp only [accAdd, List.length_append]
    omega

/-- Tokens in the aggregate invalid list arise from some batch. -/
lemma mem_sumFrom_invalid (gw : Nat → BatchResult) :
    ∀ (bs : List (List String)) (i : Nat) (t : String),
      t ∈ (sumFrom gw i bs).invalid →
      ∃ k bt, bs.get? k = some bt ∧ t ∈ (batchDelta (gw (i + k)) bt).invalid := by
  intro bs
  induction bs with
  | nil => intro i t h; simp [sumFrom, runBatches, Counts.zero] at h
  | cons bt rest IH =>
    intro i t h
    rw [sumFrom_cons] at h
    simp only [accAdd, List.mem_append] at h
    rcases h with h | h
    · exact ⟨0, bt, rfl, by simpa using h⟩
    · obtain ⟨k, bt2, hk, hmem⟩ := IH (i + 1) t h
      refine ⟨k + 1, bt2, by simpa using hk, ?_⟩
      have : i + (k + 1) = i + 1 + k := by omega
      rw [this]; exact hmem

/-! ### The batch slicing -/

lemma chunksGo_flatten :
    ∀ (fuel : Nat) (l : List String), l.length ≤ fuel →
      (chunksGo fuel l).flatten = l := by
  intro fuel
  induction fuel with
  | zero =>
    intro l h
    cases l with
    | nil => simp [chunksGo]
    | cons t rest => simp at h
  | succ n IH =>
    intro l h
    cases l with
    | nil => simp [chunksGo]
    | cons t rest =>
      simp only [chunksGo, List.flatten_cons]
      rw [IH ((t :: rest).drop 500) (by simp only [List.length_drop, List.length_cons] at h ⊢; omega)]
      exact List.take_append_drop 500 (t :: rest)

lemma chunk500_flatten (l : List String) : (chunk500 l).flatten = l :=
  chunksGo_flatten l.length l le_rfl

lemma chunksGo_length :
    ∀ (fuel : Nat) (l : List String), l.length ≤ fuel →
      (chunksGo fuel l).length = (l.length + 499) / 500 := by
  intro fuel
  induction fuel with
  | zero =>
    intro l h
    cases l with
    | nil => simp [chunksGo]
    | cons t rest => simp at h
  | succ n IH =>
    intro l h
    cases l with
    | nil => simp [chunksGo]
    | cons t rest =>
      simp only [chunksGo, List.length_cons]
      rw [IH ((t :: rest).drop 500) (by simp only [List.length_drop, List.length_cons] at h ⊢; omega)]
      simp only [List.length_drop, List.length_cons]
      omega

lemma chunk500_length (l : List String) :
    (chunk500 l).length = (l.length + 499) / 500 :=
  chunksGo_length l.length l le_rfl

lemma chunksGo_le500 :
    ∀ (fuel : Nat) (l : List String) (b : List String),
      b ∈ chunksGo fuel l → b.length ≤ 500 := by
  intro fuel
  induction fuel with
  | zero =>
    intro l b h
    cases l <;> simp [chunksGo] at h
  | succ n IH =>
    intro l b h
    cases l with
    | nil => simp [chunksGo] at h
    | cons t rest =>
      simp only [chunksGo, List.mem_cons] at h
      rcases h with h | h
      · subst h; simp [List.length_take]
      · exact IH _ b h

lemma chunk500_le500 (l : List String) (b : List String) (h : b ∈ chunk500 l) :
    b.length ≤ 500 :=
  chunksGo_le500 l.length l b h

lemma chunk500_nil : chunk500 [] = [] := rfl

/-- In a duplicate-free list, a value determines its position. -/
lemma nodup_get?_inj :
    ∀ (l : List String), l.Nodup →
      ∀ (i j : Nat) (a : String), l.get? i = some a → l.get? j = some a → i = j := by
  intro l
  induction l with
  | nil => intro _ i j a h; simp at h
  | cons x xs IH =>
    intro hnd i j a hi hj
    obtain ⟨hx, hxs⟩ := List.nodup_cons.mp hnd
    cases i with
    | zero =>
      cases j with
      | zero => rfl
      | succ m =>
        exfalso
        have hxa : x = a := by simpa using hi
        have : a ∈ xs := List.get?_mem (by simpa using hj)
        exact hx (hxa ▸ this)
    | succ n =>
      cases j with
      | zero =>
        exfalso
        have hxa : x = a := by simpa using hj
        have : a ∈ xs := List.get?_mem (by simpa using hi)
        exact hx (hxa ▸ this)
      | succ m =>
        have := IH hxs n m a (by simpa using hi) (by simpa using hj)
        omega

/-! ### Unfolding the handler on its main path -/

/-- The handler on the path that reaches the send phase: connected
database, valid title and body, successful listing, non-empty store. -/
lemma send_spec (env : Env) (req : Request)
    (hconn : env.dbConnected = true) (ht : isFalsy req.title = false)
    (hb : isFalsy req.body = false) (hl : env.listOk = true)
    (hne : env.store.isEmpty = false) :
    send_notification env req =
      (.ok { total_tokens_processed := env.store.length, success_count := (sumFrom env.gateway 0 (chunk500 env.store)).success, failure_count := (sumFrom env.gateway 0 (chunk500 env.store)).failure, invalid_tokens_removed := (sumFrom env.gateway 0 (chunk500 env.store)).invalid.length },
       { storeRead := true, gatewayBatches := chunk500 env.store, deleteRequested := if (sumFrom env.gateway 0 (chunk500 env.store)).invalid.isEmpty then none else some (sumFrom env.gateway 0 (chunk500 env.store)).invalid, historyWrite := if env.historyOk then some { title := orEmpty req.title, body := orEmpty req.body, image := req.image, total_tokens := env.store.length, success_count := (sumFrom env.gateway 0 (chunk500 env.store)).success, failure_count := (sumFrom env.gateway 0 (chunk500 env.store)).failure, invalid_tokens_removed := (sumFrom env.gateway 0 (chunk500 env.store)).invalid.length } else none, finalStore := if !(sumFrom env.gateway 0 (chunk500 env.store)).invalid.isEmpty && env.deleteOk then env.store.filter (fun t => !(sumFrom env.gateway 0 (chunk500 env.store)).invalid.contains t) else env.store }) := by
  rw [send_notification, hconn, ht, hb, hl]
  simp only [Bool.not_true, Bool.or_self, Bool.false_eq_true, if_false, hne, sumFrom]

/-! ### The gateway contract: one outcome per message -/

/-- A batch call honouring the gateway contract for its batch: either a
transport failure, or a response list with exactly one outcome per
message. -/
def respMatchesB (r : BatchResult) (bt : List String) : Bool :=
  match r with
  | .transportError => true
  | .ok rs => rs.length == bt.length

/-- Every batch call of the run honours the gateway contract. -/
def respAll (gw : Nat → BatchResult) : Nat → List (List String) → Bool
  | _, [] => true
  | i, bt :: rest => respMatchesB (gw i) bt && respAll gw (i + 1) rest

/-- Under the gateway contract, every token of every batch is tallied
exactly once: successes plus failures equal the number of tokens. -/
lemma sumFrom_counts_of_respAll (gw : Nat → BatchResult) :
    ∀ (bs : List (List String)) (i : Nat), respAll gw i bs = true →
      (sumFrom gw i bs).success + (sumFrom gw i bs).failure = bs.flatten.length := by
  intro bs
  induction bs with
  | nil => intro i _; simp [sumFrom, runBatches, Counts.zero]
  | cons bt rest IH =>
    intro i hall
    rw [respAll] at hall
    obtain ⟨hm, hrest⟩ := Bool.and_eq_true_iff.mp hall
    have htail := IH (i + 1) hrest
    have hhead : (batchDelta (gw i) bt).success + (batchDelta (gw i) bt).failure
        = bt.length := by
      cases hg : gw i with
      | transportError => rw [batchDelta_transport]; simp
      | ok rs =>
        rw [hg, respMatchesB] at hm
        have hlen : rs.length = bt.length := by simpa using hm
        rw [batchDelta_ok_of_le rs bt (le_of_eq hlen)]
        have := countT_add_countF rs
        simp only []
        omega
    rw [sumFrom_cons]
    simp only [accAdd, List.flatten_cons, List.length_append]
    omega

/-- Whenever the handler answers 200, the summary is the canonical one
computed from the batch run. -/
lemma result_ok_inv (env : Env) (req : Request) (s : Summary)
    (h : (send_notification env req).1 = .ok s) :
    s = { total_tokens_processed := env.store.length, success_count := (sumFrom env.gateway 0 (chunk500 env.store)).success, failure_count := (sumFrom env.gateway 0 (chunk500 env.store)).failure, invalid_tokens_removed := (sumFrom env.gateway 0 (chunk500 env.store)).invalid.length } := by
  cases hconn : env.dbConnected with
  | false => simp [send_notification, hconn] at h
  | true =>
    cases ht : isFalsy req.title with
    | true => simp [send_notification, hconn, ht] at h
    | false =>
      cases hb : isFalsy req.body with
      | true => simp [send_notification, hconn, ht, hb] at h
      | false =>
        cases hl : env.listOk with
        | false => simp [send_notification, hconn, ht, hb, hl] at h
        | true =>
          cases hne : env.store.isEmpty with
          | true => simp [send_notification, hconn, ht, hb, hl, hne] at h
          | false =>
            rw [send_spec env req hconn ht hb hl hne] at h
            simpa using h.symm

/-! ### Claim theorems -/

/-- C1: for every completed broadcast whose gateway responses carry one
outcome per message (the gateway contract), the success count plus the
failure count equals the total number of tokens processed, both in the
returned summary and in the persisted history record. -/
theorem C1_counts_invariant (env : Env) (req : Request)
    (hconn : env.dbConnected = true) (ht : isFalsy req.title = false)
    (hb : isFalsy req.body = false) (hl : env.listOk = true)
    (hne : env.store.isEmpty = false)
    (hresp : respAll env.gateway 0 (chunk500 env.store) = true) :
    ∃ s eff, send_notification env req = (.ok s, eff) ∧
      s.success_count + s.failure_count = s.total_tokens_processed ∧
      s.total_tokens_processed = env.store.length ∧
      ∀ rec, eff.historyWrite = some rec →
        rec.success_count + rec.failure_count = rec.total_tokens := by
  have hkey := sumFrom_counts_of_respAll env.gateway (chunk500 env.store) 0 hresp
  rw [chunk500_flatten] at hkey
  refine ⟨_, _, send_spec env req hconn ht hb hl hne, hkey, rfl, ?_⟩
  intro rec hrec
  cases hh : env.historyOk with
  | false => simp [hh] at hrec
  | true =>
    simp only [hh, if_true, Option.some.injEq] at hrec
    subst hrec
    exact hkey

/-- C4: a broadcast against an empty token store answers `NoRecipients`
(HTTP 404), issues no gateway call and writes no history record. -/
theorem C4_no_recipients (env : Env) (req : Request)
    (hconn : env.dbConnected = true) (ht : isFalsy req.title = false)
    (hb : isFalsy req.body = false) (hl : env.listOk = true)
    (hempty : env.store = []) :
    send_notification env req = (.noRecipients, { storeRead := true, gatewayBatches := [], deleteRequested := none, historyWrite := none, finalStore := env.store }) ∧
      statusCode .noRecipients = 404 := by
  constructor
  · simp [send_notification, hconn, ht, hb, hl, hempty, Effects.idle]
  · rfl

/-- C5: a broadcast over N tokens issues exactly ⌈N/500⌉ gateway batch
calls, each carrying at most 500 messages, and the batches together cover
every token exactly once (their concatenation is the token list itself). -/
theorem C5_batching (env : Env) (req : Request)
    (hconn : env.dbConnected = true) (ht : isFalsy req.title = false)
    (hb : isFalsy req.body = false) (hl : env.listOk = true)
    (hne : env.store.isEmpty = false) :
    ∃ s eff, send_notification env req = (.ok s, eff) ∧
      eff.gatewayBatches.length = (env.store.length + 499) / 500 ∧
      (∀ b ∈ eff.gatewayBatches, b.length ≤ 500) ∧
      eff.gatewayBatches.flatten = env.store := by
  refine ⟨_, _, send_spec env req hconn ht hb hl hne, ?_, ?_, ?_⟩
  · exact chunk500_length env.store
  · intro b hbm
    exact chunk500_le500 env.store b hbm
  · exact chunk500_flatten env.store

/-- C6: a request whose title or body is missing or empty is rejected with
`InvalidRequest` (HTTP 400); the token store is not read and no gateway
call is made. -/
theorem C6_validation (env : Env) (req : Request)
    (hconn : env.dbConnected = true)
    (hbad : isFalsy req.title = true ∨ isFalsy req.body = true) :
    send_notification env req = (.invalidRequest, Effects.idle env) ∧
      statusCode .invalidRequest = 400 ∧
      (Effects.idle env).storeRead = false ∧
      (Effects.idle env).gatewayBatches = [] := by
  refine ⟨?_, rfl, rfl, rfl⟩
  rcases hbad with hbad | hbad <;> simp [send_notification, hconn, hbad]

/-- C7: once the send phase is reached, the HTTP-visible result does not
depend on whether the invalid-token deletion or the history append
succeeds — those storage failures are swallowed and the same 200 summary
is returned. -/
theorem C7_storage_failures_swallowed (env : Env) (req : Request) (d h2 : Bool)
    (hconn : env.dbConnected = true) (ht : isFalsy req.title = false)
    (hb : isFalsy req.body = false) (hl : env.listOk = true)
    (hne : env.store.isEmpty = false) :
    (send_notification { env with deleteOk := d, historyOk := h2 } req).1
        = (send_notification env req).1 ∧
      ∃ s, (send_notification env req).1 = .ok s := by
  constructor
  · rw [send_spec env req hconn ht hb hl hne,
      send_spec { env with deleteOk := d, historyOk := h2 } req hconn ht hb hl hne]
  · exact ⟨_, by rw [send_spec env req hconn ht hb hl hne]⟩

/-- C9: in every 200 summary, the invalid-tokens-removed count is at most
the failure count: a token enters the invalid set only in a branch that
also counts a failure. -/
theorem C9_invalid_le_failure (env : Env) (req : Request) (s : Summary)
    (h : (send_notification env req).1 = .ok s) :
    s.invalid_tokens_removed ≤ s.failure_count := by
  rw [result_ok_inv env req s h]
  exact sumFrom_inv_le env.gateway (chunk500 env.store) 0

/-- C10: the reported invalid_tokens_removed equals the number of tokens
classified as permanently invalid by the outcome walk, and it is reported
unchanged — with the token store untouched — when the deletion fails. -/
theorem C10_reported_count (env : Env) (req : Request)
    (hconn : env.dbConnected = true) (ht : isFalsy req.title = false)
    (hb : isFalsy req.body = false) (hl : env.listOk = true)
    (hne : env.store.isEmpty = false) :
    ∃ s eff, send_notification env req = (.ok s, eff) ∧
      s.invalid_tokens_removed
        = (sumFrom env.gateway 0 (chunk500 env.store)).invalid.length ∧
      (send_notification { env with deleteOk := false } req).1 = .ok s ∧
      (send_notification { env with deleteOk := false } req).2.finalStore = env.store := by
  refine ⟨_, _, send_spec env req hconn ht hb hl hne, rfl, ?_, ?_⟩
  · rw [send_spec { env with deleteOk := false } req hconn ht hb hl hne]
  · rw [send_spec { env with deleteOk := false } req hconn ht hb hl hne]
    simp

lemma sumFrom_invalid_subset (gw : Nat → BatchResult) (bs : List (List String))
    (i : Nat) (t : String) (h : t ∈ (sumFrom gw i bs).invalid) : t ∈ bs.flatten := by
  obtain ⟨k, bt2, hk, hmem⟩ := mem_sumFrom_invalid gw bs i t h
  exact List.mem_flatten.mpr ⟨bt2, List.get?_mem hk, mem_batchDelta_invalid_subset _ _ _ hmem⟩

/-- A non-trivial batch split forces a non-empty store. -/
lemma store_ne_of_split (env : Env) (before : List (List String)) (bt : List String)
    (after : List (List String)) (hsplit : chunk500 env.store = before ++ bt :: after) :
    env.store.isEmpty = false := by
  cases hst : env.store with
  | nil =>
    exfalso
    rw [hst, chunk500_nil] at hsplit
    have := hsplit.symm
    simp at this
  | cons x xs => rfl

/-- The token list splits the way its batches do. -/
lemma store_flatten_of_split (env : Env) (before : List (List String)) (bt : List String)
    (after : List (List String)) (hsplit : chunk500 env.store = before ++ bt :: after) :
    env.store = before.flatten ++ (bt ++ after.flatten) := by
  conv_lhs => rw [← chunk500_flatten env.store]
  rw [hsplit]
  simp

/-- The aggregate over a split run. -/
lemma sumFrom_split (gw : Nat → BatchResult) (before : List (List String))
    (bt : List String) (after : List (List String)) :
    sumFrom gw 0 (before ++ bt :: after)
      = accAdd (sumFrom gw 0 before)
          (accAdd (batchDelta (gw before.length) bt)
            (sumFrom gw (before.length + 1) after)) := by
  rw [sumFrom_append, Nat.zero_add, sumFrom_cons]

/-- C3: a batch-level transport failure makes every token of that batch
count as a failure, contributes nothing to the invalid-token set (none of
the batch's tokens is scheduled for deletion), and the remaining batches
are still dispatched and tallied — the broadcast completes with a 200
summary. -/
theorem C3_transport_failure_isolation (env : Env) (req : Request)
    (before : List (List String)) (bt : List String) (after : List (List String))
    (hconn : env.dbConnected = true) (ht : isFalsy req.title = false)
    (hb : isFalsy req.body = false) (hl : env.listOk = true)
    (hnd : env.store.Nodup)
    (hsplit : chunk500 env.store = before ++ bt :: after)
    (hgw : env.gateway before.length = .transportError) :
    ∃ s eff, send_notification env req = (.ok s, eff) ∧
      eff.gatewayBatches = before ++ bt :: after ∧
      s.failure_count = (sumFrom env.gateway 0 before).failure + bt.length
          + (sumFrom env.gateway (before.length + 1) after).failure ∧
      s.success_count = (sumFrom env.gateway 0 before).success
          + (sumFrom env.gateway (before.length + 1) after).success ∧
      ∀ t ∈ bt, t ∉ eff.deleteRequested.getD [] := by
  have hne := store_ne_of_split env before bt after hsplit
  have hstore := store_flatten_of_split env before bt after hsplit
  have hS : sumFrom env.gateway 0 (chunk500 env.store)
      = accAdd (sumFrom env.gateway 0 before)
          (accAdd ⟨0, bt.length, []⟩ (sumFrom env.gateway (before.length + 1) after)) := by
    rw [hsplit, sumFrom_split, hgw, batchDelta_transport]
  have hnd2 : (before.flatten ++ (bt ++ after.flatten)).Nodup := hstore ▸ hnd
  obtain ⟨_, hnd3, hdisj1⟩ := List.nodup_append.mp hnd2
  obtain ⟨_, _, hdisj2⟩ := List.nodup_append.mp hnd3
  refine ⟨_, _, send_spec env req hconn ht hb hl hne, hsplit, ?_, ?_, ?_⟩
  · show (sumFrom env.gateway 0 (chunk500 env.store)).failure = _
    rw [hS]; simp [accAdd]; omega
  · show (sumFrom env.gateway 0 (chunk500 env.store)).success = _
    rw [hS]; simp [accAdd]
  · intro t htb
    have hnotmem : t ∉ (sumFrom env.gateway 0 (chunk500 env.store)).invalid := by
      rw [hS]
      simp only [accAdd, List.nil_append, List.mem_append]
      rintro (hm | hm)
      · exact hdisj1 (sumFrom_invalid_subset _ _ _ _ hm) (List.mem_append_left _ htb)
      · exact hdisj2 htb (sumFrom_invalid_subset _ _ _ _ hm)
    show t ∉ (Option.getD (if (sumFrom env.gateway 0 (chunk500 env.store)).invalid.isEmpty then none else some (sumFrom env.gateway 0 (chunk500 env.store)).invalid) [])
    cases hie : (sumFrom env.gateway 0 (chunk500 env.store)).invalid.isEmpty <;>
      simp [hie, hnotmem]

/-- C2: for a token at position `j` of a batch whose gateway call returned
per-token outcomes, with a failed outcome recorded at that position, the
token is scheduled for deletion and absent from the token store afterwards
precisely when its failure reason is one of the recognized
permanently-invalid codes; with any other reason (or no exception) it is
kept. -/
theorem C2_invalid_classification (env : Env) (req : Request)
    (before : List (List String)) (bt : List String) (after : List (List String))
    (rs : List Outcome) (j : Nat) (o : Outcome) (t : String)
    (hconn : env.dbConnected = true) (ht : isFalsy req.title = false)
    (hb : isFalsy req.body = false) (hl : env.listOk = true)
    (hdel : env.deleteOk = true) (hnd : env.store.Nodup)
    (hsplit : chunk500 env.store = before ++ bt :: after)
    (hgw : env.gateway before.length = .ok rs)
    (hlen : rs.length ≤ bt.length)
    (hj : rs.get? j = some o) (hfail : o.success = false)
    (htok : bt.get? j = some t) :
    ∃ s eff, send_notification env req = (.ok s, eff) ∧
      (t ∈ eff.deleteRequested.getD [] ↔ isInvalidOutcome o = true) ∧
      ((t ∉ eff.finalStore) ↔ isInvalidOutcome o = true) := by
  have hne := store_ne_of_split env before bt after hsplit
  have hstore := store_flatten_of_split env before bt after hsplit
  have htb : t ∈ bt := List.get?_mem htok
  have htstore : t ∈ env.store := by
    rw [hstore]
    exact List.mem_append_right _ (List.mem_append_left _ htb)
  have hnd2 : (before.flatten ++ (bt ++ after.flatten)).Nodup := hstore ▸ hnd
  obtain ⟨_, hnd3, hdisj1⟩ := List.nodup_append.mp hnd2
  obtain ⟨hndbt, _, hdisj2⟩ := List.nodup_append.mp hnd3
  have hS : sumFrom env.gateway 0 (chunk500 env.store)
      = accAdd (sumFrom env.gateway 0 before)
          (accAdd (batchDelta (.ok rs) bt)
            (sumFrom env.gateway (before.length + 1) after)) := by
    rw [hsplit, sumFrom_split, hgw]
  have hkey : t ∈ (sumFrom env.gateway 0 (chunk500 env.store)).invalid
      ↔ isInvalidOutcome o = true := by
    constructor
    · intro hm
      rw [hS] at hm
      simp only [accAdd, List.mem_append] at hm
      rcases hm with hm | hm | hm
      · exact absurd (List.mem_append_left _ htb)
          (fun hc => hdisj1 (sumFrom_invalid_subset _ _ _ _ hm) hc)
      · rw [batchDelta_ok_invalid] at hm
        obtain ⟨k, o2, hk, hio2, hbk⟩ := mem_respDelta_invalid bt rs 0 t hm
        rw [Nat.zero_add] at hbk
        have hkj : k = j := nodup_get?_inj bt hndbt k j t hbk htok
        subst hkj
        have : o2 = o := by rw [hj] at hk; injection hk with h2; exact h2.symm
        subst this
        exact hio2
      · exact absurd (sumFrom_invalid_subset _ _ _ _ hm) (fun hc => hdisj2 htb hc)
    · intro hio
      rw [hS]
      simp only [accAdd, List.mem_append]
      refine Or.inr (Or.inl ?_)
      rw [batchDelta_ok_of_le rs bt hlen]
      have hbt0 : bt.get? (0 + j) = some t := by rw [Nat.zero_add]; exact htok
      exact invFrom_mem bt rs 0 j o t hj hio hbt0
  refine ⟨_, _, send_spec env req hconn ht hb hl hne, ?_, ?_⟩
  · show t ∈ (Option.getD (if (sumFrom env.gateway 0 (chunk500 env.store)).invalid.isEmpty then none else some (sumFrom env.gateway 0 (chunk500 env.store)).invalid) []) ↔ _
    cases hie : (sumFrom env.gateway 0 (chunk500 env.store)).invalid.isEmpty with
    | true =>
      have hemp : (sumFrom env.gateway 0 (chunk500 env.store)).invalid = [] :=
        List.isEmpty_iff.mp hie
      simp only [if_true, Option.getD_none]
      constructor
      · intro hc; simp at hc
      · intro hio
        exfalso
        have := hkey.mpr hio
        rw [hemp] at this
        simp at this
    | false =>
      simp only [Bool.false_eq_true, if_false, Option.getD_some]
      exact hkey
  · show (t ∉ (if !(sumFrom env.gateway 0 (chunk500 env.store)).invalid.isEmpty && env.deleteOk then env.store.filter (fun x => !(sumFrom env.gateway 0 (chunk500 env.store)).invalid.contains x) else env.store)) ↔ _
    cases hie : (sumFrom env.gateway 0 (chunk500 env.store)).invalid.isEmpty with
    | true =>
      have hemp : (sumFrom env.gateway 0 (chunk500 env.store)).invalid = [] :=
        List.isEmpty_iff.mp hie
      simp only [Bool.not_true, Bool.false_and, Bool.false_eq_true, if_false]
      constructor
      · intro hc; exact absurd htstore hc
      · intro hio
        exfalso
        have := hkey.mpr hio
        rw [hemp] at this
        simp at this
    | false =>
      simp only [Bool.not_false, hdel, Bool.true_and, if_true]
      rw [← hkey]
      constructor
      · intro hc
        by_contra hmem
        exact hc (List.mem_filter.mpr ⟨htstore, by simpa using hmem⟩)
      · intro hmem hc
        have := (List.mem_filter.mp hc).2
        simp at this
        exact this hmem

/-! ### Batches whose response list is shorter than the message list -/

/-- A batch call that returned per-token outcomes, possibly fewer of them
than messages sent. -/
def okLenB (r : BatchResult) (bt : List String) : Bool :=
  match r with
  | .transportError => false
  | .ok rs => decide (rs.length ≤ bt.length)

/-- Every batch call of the run returned outcomes, at most one per message. -/
def allOkShort (gw : Nat → BatchResult) : Nat → List (List String) → Bool
  | _, [] => true
  | i, bt :: rest => okLenB (gw i) bt && allOkShort gw (i + 1) rest

/-- The total number of per-token outcomes the gateway recorded. -/
def respCount (gw : Nat → BatchResult) : Nat → List (List String) → Nat
  | _, [] => 0
  | i, _ :: rest =>
    (match gw i with
     | .ok rs => rs.length
     | .transportError => 0) + respCount gw (i + 1) rest

/-- The tokens for which the gateway recorded a per-token outcome: the
leading segment of each batch matched by its response list. -/
def coveredTokens (gw : Nat → BatchResult) : Nat → List (List String) → List String
  | _, [] => []
  | i, bt :: rest =>
    bt.take
        (match gw i with
         | .ok rs => rs.length
         | .transportError => 0)
      ++ coveredTokens gw (i + 1) rest

lemma get?_lt_length (rs : List Outcome) (k : Nat) (o : Outcome)
    (h : rs.get? k = some o) : k < rs.length := by
  by_contra hc
  push_neg at hc
  rw [List.get?_eq_none.mpr hc] at h
  simp at h

lemma mem_take_of_get? (l : List String) (k n : Nat) (t : String)
    (h : l.get? k = some t) (hk : k < n) : t ∈ l.take n := by
  have h2 : (l.take n).get? k = some t := by rw [List.get?_take hk]; exact h
  exact List.get?_mem h2

/-- With per-token outcomes on every batch, the two counters add up to the
number of recorded outcomes — a token without an outcome is tallied
nowhere. -/
lemma sumFrom_counts_of_allOkShort (gw : Nat → BatchResult) :
    ∀ (bs : List (List String)) (i : Nat), allOkShort gw i bs = true →
      (sumFrom gw i bs).success + (sumFrom gw i bs).failure = respCount gw i bs := by
  intro bs
  induction bs with
  | nil => intro i _; simp [sumFrom, runBatches, Counts.zero, respCount]
  | cons bt rest IH =>
    intro i hall
    rw [allOkShort] at hall
    obtain ⟨hm, hrest⟩ := Bool.and_eq_true_iff.mp hall
    have htail := IH (i + 1) hrest
    cases hg : gw i with
    | transportError => rw [hg, okLenB] at hm; simp at hm
    | ok rs =>
      rw [hg, okLenB] at hm
      have hlen : rs.length ≤ bt.length := of_decide_eq_true hm
      rw [sumFrom_cons, hg, batchDelta_ok_of_le rs bt hlen]
      have hcc := countT_add_countF rs
      simp only [accAdd, respCount, hg]
      omega

/-- Every token scheduled for deletion had a recorded outcome. -/
lemma sumFrom_invalid_covered (gw : Nat → BatchResult) :
    ∀ (bs : List (List String)) (i : Nat) (t : String),
      t ∈ (sumFrom gw i bs).invalid → t ∈ coveredTokens gw i bs := by
  intro bs
  induction bs with
  | nil => intro i t h; simp [sumFrom, runBatches, Counts.zero] at h
  | cons bt rest IH =>
    intro i t h
    rw [sumFrom_cons] at h
    simp only [accAdd, List.mem_append] at h
    simp only [coveredTokens, List.mem_append]
    rcases h with h | h
    · left
      cases hg : gw i with
      | transportError => rw [hg, batchDelta_transport] at h; simp at h
      | ok rs =>
        rw [hg, batchDelta_ok_invalid] at h
        obtain ⟨k, o, hk, _, hbk⟩ := mem_respDelta_invalid bt rs 0 t h
        rw [Nat.zero_add] at hbk
        exact mem_take_of_get? bt k rs.length t hbk (get?_lt_length rs k o hk)
    · right; exact IH (i + 1) t h

/-- C8 (amended): a token of a successfully answered batch for which no
per-token outcome was recorded is not tallied at all — successes plus
failures equal the number of recorded outcomes — and only tokens with a
recorded outcome can be scheduled for deletion. -/
theorem C8_amended_no_outcome (env : Env) (req : Request)
    (hconn : env.dbConnected = true) (ht : isFalsy req.title = false)
    (hb : isFalsy req.body = false) (hl : env.listOk = true)
    (hne : env.store.isEmpty = false)
    (hok : allOkShort env.gateway 0 (chunk500 env.store) = true) :
    ∃ s eff, send_notification env req = (.ok s, eff) ∧
      s.success_count + s.failure_count
        = respCount env.gateway 0 (chunk500 env.store) ∧
      ∀ t ∈ eff.deleteRequested.getD [],
        t ∈ coveredTokens env.gateway 0 (chunk500 env.store) := by
  refine ⟨_, _, send_spec env req hconn ht hb hl hne,
    sumFrom_counts_of_allOkShort env.gateway (chunk500 env.store) 0 hok, ?_⟩
  intro t htm
  have hmem : t ∈ (sumFrom env.gateway 0 (chunk500 env.store)).invalid := by
    revert htm
    show t ∈ (Option.getD (if (sumFrom env.gateway 0 (chunk500 env.store)).invalid.isEmpty then none else some (sumFrom env.gateway 0 (chunk500 env.store)).invalid) []) → _
    cases hie : (sumFrom env.gateway 0 (chunk500 env.store)).invalid.isEmpty with
    | true => intro hc; simp at hc
    | false => intro hc; simpa using hc
  exact sumFrom_invalid_covered env.gateway (chunk500 env.store) 0 t hmem

/-! ### Concrete fixtures -/

/-- A registered device token. -/
def tokA : String := "a"

/-- Another registered device token. -/
def tokB : String := "b"

/-- The unregistered-token failure code. -/
def codeUnreg : String := "UNREGISTERED"

/-- A valid broadcast request. -/
def reqW : Request := { title := some "hello", body := some "world", image := none }

/-- A request missing its title. -/
def reqNoTitle : Request := { title := none, body := some "world", image := none }

/-- A gateway delivering one message successfully. -/
def gwAllOk : Nat → BatchResult :=
  fun _ => BatchResult.ok [{ success := true, errorCode := none }]

/-- A gateway answering with an empty outcome list. -/
def gwNoResp : Nat → BatchResult := fun _ => BatchResult.ok []

/-- A gateway failing at transport level on every call. -/
def gwTransport : Nat → BatchResult := fun _ => BatchResult.transportError

/-- A gateway reporting one success and one unregistered token. -/
def gwOneInvalid : Nat → BatchResult :=
  fun _ => BatchResult.ok [{ success := true, errorCode := none }, { success := false, errorCode := some codeUnreg }]

/-- A gateway reporting a single unregistered-token failure. -/
def gwOneFail : Nat → BatchResult :=
  fun _ => BatchResult.ok [{ success := false, errorCode := some codeUnreg }]

/-- One registered token, healthy stores, fully successful delivery. -/
def envW : Env :=
  { dbConnected := true, store := [tokA], listOk := true, gateway := gwAllOk, deleteOk := true, historyOk := true }

/-- An empty token store. -/
def envEmptyStore : Env :=
  { dbConnected := true, store := [], listOk := true, gateway := gwAllOk, deleteOk := true, historyOk := true }

/-- One token whose batch receives no per-token outcome. -/
def envC8 : Env :=
  { dbConnected := true, store := [tokA], listOk := true, gateway := gwNoResp, deleteOk := true, historyOk := true }

/-- One token whose batch fails at transport level. -/
def envC3 : Env :=
  { dbConnected := true, store := [tokA], listOk := true, gateway := gwTransport, deleteOk := true, historyOk := true }

/-- Two tokens: one delivered, one unregistered. -/
def envC2 : Env :=
  { dbConnected := true, store := [tokA, tokB], listOk := true, gateway := gwOneInvalid, deleteOk := true, historyOk := true }

/-- One token reported unregistered. -/
def envC9 : Env :=
  { dbConnected := true, store := [tokA], listOk := true, gateway := gwOneFail, deleteOk := true, historyOk := true }

/-- C8 (counterexample): with one token and an empty outcome list the
broadcast answers total 1, success 0, failure 0 — the token with no
outcome is NOT counted as a failure, contradicting the claim, which
demands failure count 1 here. -/
theorem C8_counterexample :
    (send_notification envC8 reqW).1 = .ok ⟨1, 0, 0, 0⟩ ∧
      ¬ (send_notification envC8 reqW).1 = .ok ⟨1, 0, 1, 0⟩ := by
  constructor
  · rfl
  · decide

/-! ### Witnesses: the claim theorems applied at concrete inputs -/

/-- C1 witness: one token, one successful delivery. -/
theorem C1_witness :
    ∃ s eff, send_notification envW reqW = (.ok s, eff) ∧
      s.success_count + s.failure_count = s.total_tokens_processed ∧
      s.total_tokens_processed = envW.store.length ∧
      ∀ rec, eff.historyWrite = some rec →
        rec.success_count + rec.failure_count = rec.total_tokens :=
  C1_counts_invariant envW reqW rfl rfl rfl rfl rfl rfl

/-- C2 witness: two tokens; the second fails as `UNREGISTERED` and is
deleted, the classification iff holds. -/
theorem C2_witness :
    ∃ s eff, send_notification envC2 reqW = (.ok s, eff) ∧
      (tokB ∈ eff.deleteRequested.getD []
          ↔ isInvalidOutcome ⟨false, some codeUnreg⟩ = true) ∧
      ((tokB ∉ eff.finalStore)
          ↔ isInvalidOutcome ⟨false, some codeUnreg⟩ = true) :=
  C2_invalid_classification envC2 reqW [] [tokA, tokB] []
    [⟨true, none⟩, ⟨false, some codeUnreg⟩] 1 ⟨false, some codeUnreg⟩ tokB
    rfl rfl rfl rfl rfl (by decide) rfl rfl (by decide) rfl rfl rfl

/-- C3 witness: a single batch failing at transport level. -/
theorem C3_witness :
    ∃ s eff, send_notification envC3 reqW = (.ok s, eff) ∧
      eff.gatewayBatches = [] ++ [tokA] :: [] ∧
      s.failure_count = (sumFrom envC3.gateway 0 ([] : List (List String))).failure + (List.length [tokA])
          + (sumFrom envC3.gateway 1 ([] : List (List String))).failure ∧
      s.success_count = (sumFrom envC3.gateway 0 ([] : List (List String))).success
          + (sumFrom envC3.gateway 1 ([] : List (List String))).success ∧
      ∀ t ∈ [tokA], t ∉ eff.deleteRequested.getD [] :=
  C3_transport_failure_isolation envC3 reqW [] [tokA] []
    rfl rfl rfl rfl (by decide) rfl rfl

/-- C4 witness: empty store. -/
theorem C4_witness :
    send_notification envEmptyStore reqW = (.noRecipients, { storeRead := true, gatewayBatches := [], deleteRequested := none, historyWrite := none, finalStore := envEmptyStore.store }) ∧
      statusCode .noRecipients = 404 :=
  C4_no_recipients envEmptyStore reqW rfl rfl rfl rfl rfl

/-- C5 witness: one token, one batch. -/
theorem C5_witness :
    ∃ s eff, send_notification envW reqW = (.ok s, eff) ∧
      eff.gatewayBatches.length = (envW.store.length + 499) / 500 ∧
      (∀ b ∈ eff.gatewayBatches, b.length ≤ 500) ∧
      eff.gatewayBatches.flatten = envW.store :=
  C5_batching envW reqW rfl rfl rfl rfl rfl

/-- C6 witness: missing title. -/
theorem C6_witness :
    send_notification envW reqNoTitle = (.invalidRequest, Effects.idle envW) ∧
      statusCode .invalidRequest = 400 ∧
      (Effects.idle envW).storeRead = false ∧
      (Effects.idle envW).gatewayBatches = [] :=
  C6_validation envW reqNoTitle rfl (Or.inl rfl)

/-- C7 witness: both best-effort writes failing change nothing visible. -/
theorem C7_witness :
    (send_notification { envW with deleteOk := false, historyOk := false } reqW).1
        = (send_notification envW reqW).1 ∧
      ∃ s, (send_notification envW reqW).1 = .ok s :=
  C7_storage_failures_swallowed envW reqW false false rfl rfl rfl rfl rfl

/-- C8 witness for the amended statement: no outcomes recorded, so nothing
is tallied and nothing is deleted. -/
theorem C8_witness :
    ∃ s eff, send_notification envC8 reqW = (.ok s, eff) ∧
      s.success_count + s.failure_count
        = respCount envC8.gateway 0 (chunk500 envC8.store) ∧
      ∀ t ∈ eff.deleteRequested.getD [],
        t ∈ coveredTokens envC8.gateway 0 (chunk500 envC8.store) :=
  C8_amended_no_outcome envC8 reqW rfl rfl rfl rfl rfl rfl

/-- C9 witness: one unregistered token gives failure 1, removed 1. -/
theorem C9_witness :
    (Summary.mk 1 0 1 1).invalid_tokens_removed ≤ (Summary.mk 1 0 1 1).failure_count :=
  C9_invalid_le_failure envC9 reqW (Summary.mk 1 0 1 1) rfl

/-- C10 witness: the reported count survives a failing deletion. -/
theorem C10_witness :
    ∃ s eff, send_notification envW reqW = (.ok s, eff) ∧
      s.invalid_tokens_removed
        = (sumFrom envW.gateway 0 (chunk500 envW.store)).invalid.length ∧
      (send_notification { envW with deleteOk := false } reqW).1 = .ok s ∧
      (send_notification { envW with deleteOk := false } reqW).2.finalStore = envW.store :=
  C10_reported_count envW reqW rfl rfl rfl rfl rfl

end Pop
